import Mathlib

/-!
Verification of the `unif` repository's Retro-Reader decision fusion
(`src/uf/modeling/retro_reader.py`) and the ALBERT masked-LM example
builder (`src/uf/apps/albert.py`), as a shallow embedding in Lean 4.

Real-valued tensors are embedded as rationals (`ℚ`): every operation the
claims touch (subtraction, scalar multiplication, comparison, max,
absolute value) is exact, so nothing is lost by avoiding floating point.
Per-example quantities are modelled per example: a batch axis adds
nothing to per-example claims.
-/

namespace RetroReader

/-- Source: `score_ext = logits[:, 1] - logits[:, 0]` (retro_reader.py line 83),
per example: the sketchy module's external answerability score. -/
def score_ext (logit0 logit1 : ℚ) : ℚ := logit1 - logit0

/-- Embeds `tf.norm(x, np.inf, axis=-1)` on one example's vector: the largest
absolute value of the entries (infinity norm). -/
def infNorm (l : List ℚ) : ℚ := (l.map (fun x => |x|)).foldr max 0

/-- Source: `score_has = tf.norm(probs[:, 0, 1:] + probs[:, 1, 1:], np.inf, axis=-1)`
(retro_reader.py lines 180-181), per example: the infinity norm of the
elementwise sum of the start- and end-probability vectors with their
first (null) position dropped.  `start_prob = probs[:, 0, :]` and
`end_prob = probs[:, 1, :]` are softmax outputs (line 156). -/
def score_has (start_prob end_prob : List ℚ) : ℚ :=
  infNorm (List.zipWith (· + ·) start_prob.tail end_prob.tail)

/-- Source: `score_null = probs[:, 0, 0] + probs[:, 1, 0]` (retro_reader.py
line 182), per example. -/
def score_null (start_prob end_prob : List ℚ) : ℚ :=
  start_prob.headD 0 + end_prob.headD 0

/-- The spec's reading of `score_has`: the maximum over non-null
positions (all positions except position 0) of `start_prob[i] + end_prob[i]`.
Written from the spec's words, to be compared with `score_has` above. -/
def score_has_spec (start_prob end_prob : List ℚ) : ℚ :=
  (List.zipWith (· + ·) start_prob.tail end_prob.tail).foldr max 0

/-- Source: `score_diff = score_has - score_null` (retro_reader.py line 183). -/
def score_diff (score_has score_null : ℚ) : ℚ := score_has - score_null

/-- Source: `v = beta_1 * score_diff + beta_2 * score_ext` (retro_reader.py
line 186): the rear-verification fusion score. -/
def fusion (beta_1 beta_2 sd se : ℚ) : ℚ := beta_1 * sd + beta_2 * se

/-- Source: `verifier_preds = tf.cast(tf.greater(v, threshold), tf.int32)`
(retro_reader.py lines 187-188), per example. -/
def verifier_preds (beta_1 beta_2 threshold sd se : ℚ) : ℤ :=
  if fusion beta_1 beta_2 sd se > threshold then 1 else 0

/-- Source: `verifier_probs = v` (retro_reader.py line 189), per example. -/
def verifier_probs (beta_1 beta_2 sd se : ℚ) : ℚ := fusion beta_1 beta_2 sd se

/-- Shape of the tensor returned by `attention_layer` with
`do_return_2d_tensor=False` (retro_reader.py lines 321-325): the final
reshape produces `[batch_size, from_max_seq_length, N*H]` where `N` is
`num_attention_heads` and `H` is `size_per_head`. -/
def attention_output_shape
    (batch_size from_max_seq_length num_attention_heads size_per_head : Nat) :
    List Nat :=
  [batch_size, from_max_seq_length, num_attention_heads * size_per_head]

/-- Shape of `H_prime` in the cross-attention branch (retro_reader.py
lines 99-112): `attention_layer` is called with `num_attention_heads=12`
and `size_per_head = hidden_size // 12` (integer division, line 104). -/
def H_prime_shape (batch_size max_seq_length hidden_size : Nat) : List Nat :=
  attention_output_shape batch_size max_seq_length 12 (hidden_size / 12)

/-- The `tf.ones(shape=[batch_size, max_seq_length, 1])` factor of
`create_attention_mask_from_input_mask` (retro_reader.py lines 200-201),
as a function of its batch and from-position indices. -/
def broadcast_ones (_i _f : Nat) : ℚ := 1

/-- Embeds `create_attention_mask_from_input_mask` (retro_reader.py lines
193-203): `to_mask` reshaped to `[B, 1, L]` is broadcast-multiplied with
ones of shape `[B, L, 1]`, so entry `(i, f, t)` of the result is
`1 * to_mask[i, t]`. -/
def create_attention_mask_from_input_mask
    (to_mask : Nat → Nat → ℚ) (i f t : Nat) : ℚ :=
  broadcast_ones i f * to_mask i t

/-- Application of the attention mask to one raw attention score
(retro_reader.py lines 285-290): `adder = (1.0 - mask) * -10000.0` is
added to the score before the softmax. -/
def apply_attention_mask (score mask : ℚ) : ℚ :=
  score + (1 - mask) * (-10000)

end RetroReader

namespace ALBERT

/-- Modelled from the spec: `com.truncate_segments` (imported from
`uf.com`, not under src/) with the default `truncate_method="LIFO"` —
"trim-from-back": tokens are removed from the back until the combined
segments fit the budget, i.e. only the first `budget` tokens overall are
kept, clipped to the original segment boundaries. -/
def truncate_segments {α : Type} : List (List α) → Nat → List (List α)
  | [], _ => []
  | s :: rest, b => s.take b :: truncate_segments rest (b - s.length)

/-- Combined token count of a list of segments. -/
def totalLen {α : Type} (segs : List (List α)) : Nat :=
  (segs.map List.length).sum

/-- The source's padding loops (`for _ in range(n - len(l)): l.append(pad)`,
albert.py lines 439-442, 451-452, 457-460): append `pad` until length `n`
(a no-op when the list is already at least that long, since `range` of a
negative number is empty). -/
def padTo {α : Type} (n : Nat) (pad : α) (l : List α) : List α :=
  l ++ List.replicate (n - l.length) pad

/-- The `_input_tokens` assembly (albert.py lines 405, 415-417): `["[CLS]"]`
followed by each segment with a `"[SEP]"` appended. -/
def assemble_tokens (segs : List (List String)) : List String :=
  "[CLS]" :: (segs.map (fun s => s ++ ["[SEP]"])).flatten

/-- The `_input_mask` assembly (albert.py lines 407, 418): `[1]` followed by
`[1] * (len(segment) + 1)` per segment. -/
def assemble_mask (segs : List (List String)) : List Nat :=
  1 :: (segs.map (fun s => List.replicate (s.length + 1) 1)).flatten

/-- The `_segment_ids` assembly (albert.py lines 408, 415-419): `[0]`
followed by `[min(s_id, 1)] * (len(segment) + 1)` per segment. -/
def assemble_segment_ids (segs : List (List String)) : List Nat :=
  0 :: (segs.enum.map (fun p => List.replicate (p.2.length + 1) (min p.1 1))).flatten

/-- Python bool-to-int coercion used in `1 + self._do_permutation`. -/
def bton (b : Bool) : Nat := if b then 1 else 0

/-- One converted example: the per-example rows of the seven arrays built
by `ALBERTLM._convert_X` (albert.py lines 404-467; the eighth item,
`sentence_order_labels`, lives at batch level). -/
structure Example where
  input_ids : List Nat
  input_mask : List Nat
  segment_ids : List Nat
  masked_lm_positions : List Nat
  masked_lm_ids : List Nat
  masked_lm_weights : List ℚ
deriving DecidableEq

/-- The training-mode body of the per-example loop of
`ALBERTLM._convert_X` (albert.py lines 404-467).  The call to
`create_masked_lm_predictions` (line 425) is to code imported from
`uf.model.albert`, not under src/, and is stochastic; its result — the
masked token sequence `masked_tokens`, the selected `positions` and the
original tokens `labels` at those positions — is therefore passed in as
an argument, with the contract the spec states for it (at most
`max_predictions_per_seq * (1 + do_permutation)` positions, one label
per position, token list length preserved) taken as hypotheses of the
theorems below.  `tok` is the tokenizer's `convert_tokens_to_ids` on one
token (external collaborator). -/
def convert_example_train (msl mpps : Nat) (do_perm : Bool)
    (tok : String → Nat) (segs0 : List (List String))
    (masked_tokens : List String) (positions : List Nat)
    (labels : List String) : Example :=
  let segs := truncate_segments segs0 (msl - segs0.length - 1)
  let n := mpps * (1 + bton do_perm)
  let ids := masked_tokens.map tok
  { input_ids := ids ++ List.replicate (msl - ids.length) 0
    input_mask := assemble_mask segs ++ List.replicate (msl - ids.length) 0
    segment_ids := assemble_segment_ids segs ++ List.replicate (msl - ids.length) 0
    masked_lm_positions := padTo n 0 positions
    masked_lm_ids := labels.map tok ++ List.replicate (n - positions.length) 0
    masked_lm_weights :=
      List.replicate positions.length (1 : ℚ) ++ List.replicate (n - positions.length) 0 }

/-- The inference-mode `[MASK]` scan of `ALBERTLM._convert_X`
(albert.py lines 446-448): `for i in range(len(tokens)): if
tokens[i] == "[MASK]": positions.append(i)`, started at index `i`. -/
def maskPositions : List String → Nat → List Nat
  | [], _ => []
  | tkn :: rest, i =>
    if tkn = "[MASK]" then i :: maskPositions rest (i + 1)
    else maskPositions rest (i + 1)

/-- The inference-mode `[MASK]` position list, scanned from index 0. -/
def mask_positions_of (tokens : List String) : List Nat :=
  maskPositions tokens 0

/-- The inference-mode body of the per-example loop of
`ALBERTLM._convert_X` (albert.py lines 404-467, `is_training=False`
branch): no masking is performed, `masked_lm_positions` records the
indices of literal `"[MASK]"` tokens, and `_masked_lm_ids` /
`_masked_lm_weights` stay empty. -/
def convert_example_infer (msl mpps : Nat) (do_perm : Bool)
    (tok : String → Nat) (segs0 : List (List String)) : Example :=
  let segs := truncate_segments segs0 (msl - segs0.length - 1)
  let toks := assemble_tokens segs
  let ids := toks.map tok
  { input_ids := ids ++ List.replicate (msl - ids.length) 0
    input_mask := assemble_mask segs ++ List.replicate (msl - ids.length) 0
    segment_ids := assemble_segment_ids segs ++ List.replicate (msl - ids.length) 0
    masked_lm_positions := padTo (mpps * (1 + bton do_perm)) 0 (mask_positions_of toks)
    masked_lm_ids := []
    masked_lm_weights := [] }

/-- The `ValueError` message of `ALBERTLM._convert_X` (albert.py
line 376): `"Wrong input format (line %d): \"%s\". " % (idx, sample)`. -/
def wrong_input_msg (idx : Nat) (s : String) : String :=
  "Wrong input format (line " ++ toString idx ++ "): \"" ++ s ++ "\". "

/-- The tokenization loop of `ALBERTLM._convert_X` (albert.py lines
370-376): convert each raw sample in order; any exception at index `idx`
is turned into a `ValueError` carrying `idx` and the raw sample, and the
whole conversion aborts.  `conv_x` models `self._convert_x` (defined in
the BERT base module, not under src/): `none` stands for a raised
exception. -/
def tokenize_all (conv_x : String → Option (List (List String))) :
    List String → Nat → Except String (List (List (List String)))
  | [], _ => Except.ok []
  | s :: rest, idx =>
    match conv_x s with
    | none => Except.error (wrong_input_msg idx s)
    | some t => (tokenize_all conv_x rest (idx + 1)).map (t :: ·)

/-- Embeds `ALBERTLM._convert_X` in inference mode (albert.py lines 368-469,
`is_training=False`): tokenize every sample (fail-fast), then convert
each tokenized sample independently. -/
def convert_X_infer (msl mpps : Nat) (do_perm : Bool) (tok : String → Nat)
    (conv_x : String → Option (List (List String))) (X : List String) :
    Except String (List Example) :=
  (tokenize_all conv_x X 0).map
    (List.map (convert_example_infer msl mpps do_perm tok))

/-- The `data` dictionary returned by `ALBERTLM.convert` (albert.py
lines 329-366): one optional entry per key the source may set. -/
structure ConvertData where
  input_ids : Option (List (List Nat))
  input_mask : Option (List (List Nat))
  segment_ids : Option (List (List Nat))
  masked_lm_positions : Option (List (List Nat))
  masked_lm_ids : Option (List (List Nat))
  masked_lm_weights : Option (List (List ℚ))
  sentence_order_labels : Option (List Nat)
  sample_weight : Option (List ℚ)
deriving DecidableEq

/-- Modelled from the spec: `LMModule._convert_sample_weight` (base
module, not under src/) — the supplied per-example weights, defaulting
to weight 1 per example. -/
def convert_sample_weight (sw : Option (List ℚ)) (n : Nat) : List ℚ :=
  sw.getD (List.replicate n 1)

/-- Embeds `ALBERTLM.convert` (albert.py lines 320-366).  The Python `assert`
statements at lines 323-327 run before any conversion and become the
two `Except.error` branches.  The training conversion path (albert.py
lines 387-467) calls `create_instances_from_document` and
`create_masked_lm_predictions`, stochastic code imported from
`uf.model.albert` that is not under src/; Modelled from the spec: the
whole training pipeline's result for the tokenized documents — the
converted Examples and the sentence-order labels — is taken as the
oracle parameter `trainConv`.  `y` labels are already numeric, so
`_convert_y` is the identity on them. -/
def convert (do_sample_sentence : Bool) (msl mpps : Nat) (do_perm : Bool)
    (tok : String → Nat) (conv_x : String → Option (List (List String)))
    (trainConv : List (List (List String)) → List Example × List Nat)
    (X : Option (List String)) (y : Option (List Nat))
    (sample_weight : Option (List ℚ)) (is_training : Bool) :
    Except String ConvertData :=
  if is_training && y.isSome && do_sample_sentence then
    Except.error "`y` should be None when `do_sample_sentence` is True."
  else if is_training && y.isNone && !do_sample_sentence then
    Except.error "`y` can't be None when `do_sample_sentence` is False."
  else
    match X with
    | some xs =>
      match tokenize_all conv_x xs 0 with
      | Except.error e => Except.error e
      | Except.ok segss =>
        let exs := if is_training then (trainConv segss).1
                   else segss.map (convert_example_infer msl mpps do_perm tok)
        Except.ok {
          input_ids := some (exs.map (fun e => e.input_ids)),
          input_mask := some (exs.map (fun e => e.input_mask)),
          segment_ids := some (exs.map (fun e => e.segment_ids)),
          masked_lm_positions := some (exs.map (fun e => e.masked_lm_positions)),
          masked_lm_ids :=
            if is_training then some (exs.map (fun e => e.masked_lm_ids)) else none,
          masked_lm_weights :=
            if is_training then some (exs.map (fun e => e.masked_lm_weights)) else none,
          sentence_order_labels :=
            match y with
            | some ys => some ys
            | none =>
              if is_training && do_sample_sentence then some (trainConv segss).2
              else none,
          sample_weight :=
            if is_training || y.isSome then
              some (convert_sample_weight sample_weight exs.length)
            else none }
    | none =>
      Except.ok {
        input_ids := none, input_mask := none, segment_ids := none,
        masked_lm_positions := none, masked_lm_ids := none,
        masked_lm_weights := none,
        sentence_order_labels := y,
        sample_weight :=
          if is_training || y.isSome then
            some (convert_sample_weight sample_weight 0)
          else none }

end ALBERT

open RetroReader in
/-- C1.  The verifier decision equals the linear threshold rule
`v = beta_1 * (score_has - score_null) + beta_2 * score_external`:
`verifier_preds` is `1` exactly when `v` is strictly greater than the
threshold, `v` equal to the threshold yields `0`, and at
`score_has = 0.9`, `score_null = 0.1`, `score_external = 2.0`,
`beta_1 = beta_2 = 0.5`, `threshold = 1.0` the score is `v = 1.4` and the
decision is `1` (true). -/
theorem C1_verifier_threshold_rule (sh sn se beta_1 beta_2 t : ℚ) :
    (verifier_preds beta_1 beta_2 t (score_diff sh sn) se = 1 ↔
      beta_1 * (sh - sn) + beta_2 * se > t)
    ∧ verifier_preds beta_1 beta_2
        (fusion beta_1 beta_2 (score_diff sh sn) se) (score_diff sh sn) se = 0
    ∧ fusion (1/2) (1/2) (score_diff (9/10) (1/10)) 2 = 7/5
    ∧ verifier_preds (1/2) (1/2) 1 (score_diff (9/10) (1/10)) 2 = 1 := by
  refine ⟨?_, ?_, by norm_num [fusion, score_diff], by norm_num [verifier_preds, fusion, score_diff]⟩
  · unfold verifier_preds fusion score_diff
    split <;> simp_all
  · unfold verifier_preds
    simp

open RetroReader in
/-- C4.  The verifier decision is antitone in the threshold: for a fixed
fusion score, if the decision at threshold `t1` is `0` (false) and
`t1 ≤ t2`, the decision at threshold `t2` is also `0`. -/
theorem C4_verifier_threshold_antitone
    (beta_1 beta_2 sd se t1 t2 : ℚ) (h12 : t1 ≤ t2)
    (h : verifier_preds beta_1 beta_2 t1 sd se = 0) :
    verifier_preds beta_1 beta_2 t2 sd se = 0 := by
  unfold verifier_preds at h ⊢
  split at h
  · simp at h
  · next hnot =>
    rw [if_neg]
    intro hgt
    exact hnot (lt_of_le_of_lt h12 hgt)

/-- Witness for C4 at concrete inputs. -/
theorem C4_verifier_threshold_antitone_witness :
    RetroReader.verifier_preds 1 1 3 1 1 = 0 :=
  C4_verifier_threshold_antitone 1 1 1 1 2 3 (by norm_num)
    (by norm_num [RetroReader.verifier_preds, RetroReader.fusion])

open RetroReader in
/-- C8.  The output `verifier_probs` is the raw fusion score itself (no
normalization): it can be negative or exceed `1`, and `verifier_preds`
is `1` exactly when `verifier_probs` is strictly greater than the
threshold, so the two outputs are mutually consistent. -/
theorem C8_verifier_probs_raw :
    (∀ beta_1 beta_2 sd se t : ℚ,
      verifier_probs beta_1 beta_2 sd se = fusion beta_1 beta_2 sd se
      ∧ (verifier_preds beta_1 beta_2 t sd se = 1 ↔
          verifier_probs beta_1 beta_2 sd se > t))
    ∧ verifier_probs (1/2) (1/2) (-3) 0 < 0
    ∧ verifier_probs (1/2) (1/2) 0 4 > 1 := by
  refine ⟨fun beta_1 beta_2 sd se t => ⟨rfl, ?_⟩,
    by norm_num [verifier_probs, fusion], by norm_num [verifier_probs, fusion]⟩
  unfold verifier_preds verifier_probs
  split <;> simp_all

theorem infNorm_of_nonneg (l : List ℚ) (h : ∀ x ∈ l, 0 ≤ x) :
    RetroReader.infNorm l = l.foldr max 0 := by
  induction l with
  | nil => rfl
  | cons a l ih =>
    simp only [RetroReader.infNorm, List.map_cons, List.foldr_cons]
    rw [abs_of_nonneg (h a (by simp))]
    have := ih (fun x hx => h x (List.mem_cons_of_mem _ hx))
    simp only [RetroReader.infNorm] at this
    rw [this]

theorem zipWith_add_nonneg :
    ∀ (l1 l2 : List ℚ), (∀ x ∈ l1, 0 ≤ x) → (∀ x ∈ l2, 0 ≤ x) →
    ∀ x ∈ List.zipWith (· + ·) l1 l2, 0 ≤ x := by
  intro l1
  induction l1 with
  | nil => intro l2 _ _ x hx; simp at hx
  | cons a l ih =>
    intro l2 h1 h2 x hx
    cases l2 with
    | nil => simp at hx
    | cons b l2' =>
      simp only [List.zipWith_cons_cons, List.mem_cons] at hx
      rcases hx with rfl | hx
      · exact add_nonneg (h1 a (by simp)) (h2 b (by simp))
      · exact ih l2' (fun y hy => h1 y (by simp [hy]))
          (fun y hy => h2 y (by simp [hy])) x hx

open RetroReader in
/-- C2.  Because the start- and end-probability vectors are softmax
outputs and hence entrywise nonnegative (taken as the hypotheses `hsp`,
`hep`), the intensive stage's `score_has` — the infinity norm of
`start_prob + end_prob` over positions `1` and above — equals the
maximum over non-null positions of `start_prob[i] + end_prob[i]`, and
`score_null` equals `start_prob[0] + end_prob[0]`. -/
theorem C2_score_has_eq_max (sp ep : List ℚ)
    (hsp : ∀ x ∈ sp, 0 ≤ x) (hep : ∀ x ∈ ep, 0 ≤ x) :
    score_has sp ep = score_has_spec sp ep
    ∧ score_null sp ep = sp.headD 0 + ep.headD 0 := by
  refine ⟨?_, rfl⟩
  unfold score_has score_has_spec
  exact infNorm_of_nonneg _
    (zipWith_add_nonneg sp.tail ep.tail
      (fun x hx => hsp x (List.mem_of_mem_tail hx))
      (fun x hx => hep x (List.mem_of_mem_tail hx)))

/-- Witness for C2 at concrete softmax-like vectors. -/
theorem C2_score_has_eq_max_witness :
    RetroReader.score_has [1/2, 1/4, 1/4] [1/10, 2/10, 7/10]
      = RetroReader.score_has_spec [1/2, 1/4, 1/4] [1/10, 2/10, 7/10]
    ∧ RetroReader.score_null [1/2, 1/4, 1/4] [1/10, 2/10, 7/10]
      = ([(1:ℚ)/2, 1/4, 1/4]).headD 0 + ([(1:ℚ)/10, 2/10, 7/10]).headD 0 :=
  C2_score_has_eq_max [1/2, 1/4, 1/4] [1/10, 2/10, 7/10]
    (by intro x hx; simp only [List.mem_cons, List.not_mem_nil, or_false] at hx
        rcases hx with rfl | rfl | rfl <;> norm_num)
    (by intro x hx; simp only [List.mem_cons, List.not_mem_nil, or_false] at hx
        rcases hx with rfl | rfl | rfl <;> norm_num)

/-- C5 counterexample: with `hidden_size = 13` (not divisible by 12) the
cross-attention output shape is `[1, 1, 12]`, not `[1, 1, 13]`, so
`H_prime` does not have the shape of the encoder sequence output `H`. -/
theorem C5_cross_attention_shape_cex :
    RetroReader.H_prime_shape 1 1 13 ≠ [1, 1, 13] := by decide

open RetroReader in
/-- C5 (amended).  The cross-attention matching stage (12 heads, head
size `hidden_size // 12`) produces `H_prime` of shape
`[batch, seq_length, 12 * (hidden_size / 12)]`, which equals the shape
`[batch, seq_length, hidden_size]` of the intensive encoder output `H`
exactly when `hidden_size` is divisible by 12. -/
theorem C5_cross_attention_shape (b s h : Nat) :
    H_prime_shape b s h = [b, s, h] ↔ 12 ∣ h := by
  unfold H_prime_shape attention_output_shape
  constructor
  · intro he
    have h3 : 12 * (h / 12) = h := by
      injection he with _ he2
      injection he2 with _ he3
      injection he3
    exact ⟨h / 12, h3.symm⟩
  · intro hd
    rw [Nat.mul_div_cancel' hd]

open RetroReader in
/-- C10.  The attention mask built by
`create_attention_mask_from_input_mask` satisfies
`mask[i, f, t] = to_mask[i, t]` for every from-position `f` (it is
independent of `f`), and applying it adds `(1 - to_mask[i, t]) * -10000`
to the raw score: masked-out key positions (`to_mask = 0`) receive a
`-10000` additive penalty before the softmax, kept positions
(`to_mask = 1`) are unchanged. -/
theorem C10_attention_mask_from_pos_independent
    (to_mask : Nat → Nat → ℚ) (i f t : Nat) (score : ℚ) :
    create_attention_mask_from_input_mask to_mask i f t = to_mask i t
    ∧ apply_attention_mask score
        (create_attention_mask_from_input_mask to_mask i f t)
      = score + (1 - to_mask i t) * (-10000)
    ∧ apply_attention_mask score 0 = score - 10000
    ∧ apply_attention_mask score 1 = score := by
  unfold apply_attention_mask create_attention_mask_from_input_mask broadcast_ones
  refine ⟨one_mul _, by rw [one_mul], by ring, by ring⟩

theorem truncate_segments_length {α : Type} :
    ∀ (segs : List (List α)) (b : Nat),
    (ALBERT.truncate_segments segs b).length = segs.length := by
  intro segs
  induction segs with
  | nil => intro b; rfl
  | cons s rest ih => intro b; simp [ALBERT.truncate_segments, ih]

theorem truncate_segments_totalLen {α : Type} :
    ∀ (segs : List (List α)) (b : Nat),
    ALBERT.totalLen (ALBERT.truncate_segments segs b) ≤ b := by
  intro segs
  induction segs with
  | nil => intro b; simp [ALBERT.truncate_segments, ALBERT.totalLen]
  | cons s rest ih =>
    intro b
    simp only [ALBERT.truncate_segments, ALBERT.totalLen, List.map_cons,
      List.sum_cons, List.length_take]
    have h2 := ih (b - s.length)
    simp only [ALBERT.totalLen] at h2
    omega

theorem assemble_tokens_length (segs : List (List String)) :
    (ALBERT.assemble_tokens segs).length
      = 1 + ALBERT.totalLen segs + segs.length := by
  induction segs with
  | nil => rfl
  | cons s rest ih =>
    simp only [ALBERT.assemble_tokens, ALBERT.totalLen, List.map_cons,
      List.flatten_cons, List.length_cons, List.length_append,
      List.length_nil, List.sum_cons] at *
    omega

theorem assemble_mask_length (segs : List (List String)) :
    (ALBERT.assemble_mask segs).length
      = 1 + ALBERT.totalLen segs + segs.length := by
  induction segs with
  | nil => rfl
  | cons s rest ih =>
    simp only [ALBERT.assemble_mask, ALBERT.totalLen, List.map_cons,
      List.flatten_cons, List.length_cons, List.length_append,
      List.length_replicate, List.sum_cons] at *
    omega

theorem assemble_mask_sum (segs : List (List String)) :
    (ALBERT.assemble_mask segs).sum
      = 1 + ALBERT.totalLen segs + segs.length := by
  induction segs with
  | nil => rfl
  | cons s rest ih =>
    simp only [ALBERT.assemble_mask, ALBERT.totalLen, List.map_cons,
      List.flatten_cons, List.sum_cons, List.sum_append,
      List.sum_replicate, smul_eq_mul, mul_one, List.length_cons] at *
    omega

theorem segids_flatten_length :
    ∀ (segs : List (List String)) (i : Nat),
    (((List.enumFrom i segs).map
        (fun p => List.replicate (p.2.length + 1) (min p.1 1))).flatten).length
      = ALBERT.totalLen segs + segs.length := by
  intro segs
  induction segs with
  | nil => intro i; rfl
  | cons s rest ih =>
    intro i
    simp only [List.enumFrom_cons, ALBERT.totalLen, List.map_cons,
      List.flatten_cons, List.length_append, List.length_replicate,
      List.sum_cons, List.length_cons] at *
    have := ih (i + 1)
    simp only [ALBERT.totalLen] at this
    omega

theorem assemble_segment_ids_length (segs : List (List String)) :
    (ALBERT.assemble_segment_ids segs).length
      = 1 + ALBERT.totalLen segs + segs.length := by
  simp only [ALBERT.assemble_segment_ids, List.enum, List.length_cons]
  rw [segids_flatten_length segs 0]
  omega

theorem padTo_length {α : Type} (n : Nat) (p : α) (l : List α)
    (h : l.length ≤ n) : (ALBERT.padTo n p l).length = n := by
  simp only [ALBERT.padTo, List.length_append, List.length_replicate]
  omega

theorem padTo_take {α : Type} (n : Nat) (p : α) (l : List α) :
    (ALBERT.padTo n p l).take l.length = l := by
  simp [ALBERT.padTo]

theorem padTo_drop {α : Type} (n : Nat) (p : α) (l : List α) :
    (ALBERT.padTo n p l).drop l.length = List.replicate (n - l.length) p := by
  simp [ALBERT.padTo]

theorem take_append_eq {α : Type} (l r : List α) :
    (l ++ r).take l.length = l := by simp

theorem drop_append_eq {α : Type} (l r : List α) :
    (l ++ r).drop l.length = r := by simp

theorem take_append_len {α : Type} (l r : List α) (k : Nat)
    (hk : l.length = k) : (l ++ r).take k = l := by subst hk; simp

theorem drop_append_len {α : Type} (l r : List α) (k : Nat)
    (hk : l.length = k) : (l ++ r).drop k = r := by subst hk; simp

open ALBERT in
/-- C3.  For every Example produced by `ALBERTLM._convert_X` in training
mode — with the masker's result subject to the contract the spec states
for it (`hp`, `hl`, `ht`) — the `masked_lm_positions`, `masked_lm_ids`
and `masked_lm_weights` lists each have length exactly
`max_predictions_per_seq * (1 + do_permutation)`, with the real entries
first and trailing padding entries of position `0`, id `0` and weight
`0`; the token-level arrays `input_ids`, `input_mask` and `segment_ids`
each have length `max_seq_length` with padding entries `0`, and the sum
of `input_mask` equals the number of non-padding tokens. -/
theorem C3_train_example_shapes
    (msl mpps : Nat) (do_perm : Bool) (tok : String → Nat)
    (segs0 : List (List String)) (masked_tokens : List String)
    (positions : List Nat) (labels : List String)
    (hseg : segs0.length + 1 ≤ msl)
    (hp : positions.length ≤ mpps * (1 + bton do_perm))
    (hl : labels.length = positions.length)
    (ht : masked_tokens.length
      = (assemble_tokens (truncate_segments segs0 (msl - segs0.length - 1))).length) :
    (convert_example_train msl mpps do_perm tok segs0 masked_tokens
        positions labels).masked_lm_positions.length
        = mpps * (1 + bton do_perm)
    ∧ (convert_example_train msl mpps do_perm tok segs0 masked_tokens
        positions labels).masked_lm_ids.length = mpps * (1 + bton do_perm)
    ∧ (convert_example_train msl mpps do_perm tok segs0 masked_tokens
        positions labels).masked_lm_weights.length = mpps * (1 + bton do_perm)
    ∧ (convert_example_train msl mpps do_perm tok segs0 masked_tokens
        positions labels).masked_lm_positions.take positions.length = positions
    ∧ (convert_example_train msl mpps do_perm tok segs0 masked_tokens
        positions labels).masked_lm_ids.take positions.length = labels.map tok
    ∧ (convert_example_train msl mpps do_perm tok segs0 masked_tokens
        positions labels).masked_lm_weights.take positions.length
        = List.replicate positions.length 1
    ∧ (∀ x ∈ (convert_example_train msl mpps do_perm tok segs0 masked_tokens
        positions labels).masked_lm_positions.drop positions.length, x = 0)
    ∧ (∀ x ∈ (convert_example_train msl mpps do_perm tok segs0 masked_tokens
        positions labels).masked_lm_ids.drop positions.length, x = 0)
    ∧ (∀ x ∈ (convert_example_train msl mpps do_perm tok segs0 masked_tokens
        positions labels).masked_lm_weights.drop positions.length, x = 0)
    ∧ (convert_example_train msl mpps do_perm tok segs0 masked_tokens
        positions labels).input_ids.length = msl
    ∧ (convert_example_train msl mpps do_perm tok segs0 masked_tokens
        positions labels).input_mask.length = msl
    ∧ (convert_example_train msl mpps do_perm tok segs0 masked_tokens
        positions labels).segment_ids.length = msl
    ∧ (∀ x ∈ (convert_example_train msl mpps do_perm tok segs0 masked_tokens
        positions labels).input_ids.drop masked_tokens.length, x = 0)
    ∧ (∀ x ∈ (convert_example_train msl mpps do_perm tok segs0 masked_tokens
        positions labels).input_mask.drop masked_tokens.length, x = 0)
    ∧ (∀ x ∈ (convert_example_train msl mpps do_perm tok segs0 masked_tokens
        positions labels).segment_ids.drop masked_tokens.length, x = 0)
    ∧ (convert_example_train msl mpps do_perm tok segs0 masked_tokens
        positions labels).input_mask.sum = masked_tokens.length := by
  have h1 : (truncate_segments segs0 (msl - segs0.length - 1)).length
      = segs0.length := truncate_segments_length segs0 _
  have h2 : totalLen (truncate_segments segs0 (msl - segs0.length - 1))
      ≤ msl - segs0.length - 1 := truncate_segments_totalLen segs0 _
  have hTok := assemble_tokens_length (truncate_segments segs0 (msl - segs0.length - 1))
  have hM := assemble_mask_length (truncate_segments segs0 (msl - segs0.length - 1))
  have hMs := assemble_mask_sum (truncate_segments segs0 (msl - segs0.length - 1))
  have hS := assemble_segment_ids_length (truncate_segments segs0 (msl - segs0.length - 1))
  have hmt : masked_tokens.length
      = 1 + totalLen (truncate_segments segs0 (msl - segs0.length - 1)) + segs0.length := by
    rw [ht, hTok, h1]
  have hle : masked_tokens.length ≤ msl := by omega
  have hmap : (masked_tokens.map tok).length = masked_tokens.length := by simp
  dsimp only [convert_example_train]
  refine ⟨?_, ?_, ?_, ?_, ?_, ?_, ?_, ?_, ?_, ?_, ?_, ?_, ?_, ?_, ?_, ?_⟩
  · exact padTo_length _ _ _ hp
  · simp only [List.length_append, List.length_replicate, List.length_map]
    omega
  · simp only [List.length_append, List.length_replicate]
    omega
  · exact padTo_take _ _ _
  · exact take_append_len _ _ _ (by simp [hl])
  · exact take_append_len _ _ _ (by simp)
  · rw [padTo_drop]
    intro x hx
    exact List.eq_of_mem_replicate hx
  · rw [drop_append_len _ _ _ (by simp [hl] : (labels.map tok).length = positions.length)]
    intro x hx
    exact List.eq_of_mem_replicate hx
  · rw [drop_append_len _ _ _
      (by simp : (List.replicate positions.length (1 : ℚ)).length = positions.length)]
    intro x hx
    exact List.eq_of_mem_replicate hx
  · simp only [List.length_append, List.length_replicate, List.length_map]
    omega
  · simp only [List.length_append, List.length_replicate, List.length_map]
    omega
  · simp only [List.length_append, List.length_replicate, List.length_map]
    omega
  · rw [drop_append_len _ _ _ hmap]
    intro x hx
    exact List.eq_of_mem_replicate hx
  · rw [drop_append_len _ _ _ (by omega :
      (assemble_mask (truncate_segments segs0 (msl - segs0.length - 1))).length
        = masked_tokens.length)]
    intro x hx
    exact List.eq_of_mem_replicate hx
  · rw [drop_append_len _ _ _ (by omega :
      (assemble_segment_ids (truncate_segments segs0 (msl - segs0.length - 1))).length
        = masked_tokens.length)]
    intro x hx
    exact List.eq_of_mem_replicate hx
  · simp only [List.sum_append, List.sum_replicate, smul_eq_mul, mul_zero]
    omega

/-- Witness for C3 at a concrete training example. -/
theorem C3_train_example_shapes_witness :
    (ALBERT.convert_example_train 8 2 false (fun _ => 3) [["a", "b"], ["c"]]
      ["[CLS]", "a", "[MASK]", "[SEP]", "c", "[SEP]"] [2] ["b"]).masked_lm_positions.length
      = 2 * (1 + ALBERT.bton false) :=
  (C3_train_example_shapes 8 2 false (fun _ => 3) [["a", "b"], ["c"]]
    ["[CLS]", "a", "[MASK]", "[SEP]", "c", "[SEP]"] [2] ["b"]
    (by decide) (by decide) (by decide) (by decide)).1

open ALBERT in
/-- C6.  In training mode, `ALBERTLM.convert` rejects supplying explicit
labels `y` while `do_sample_sentence` is true, and supplying `y = None`
while `do_sample_sentence` is false, with an assertion error — before
any input conversion or instance construction: the result is the error
for every tokenizer `conv_x`, every training pipeline `trainConv` and
every input `X`, including inputs whose conversion would itself fail. -/
theorem C6_convert_training_label_contradiction
    (msl mpps : Nat) (do_perm : Bool) (tok : String → Nat)
    (conv_x : String → Option (List (List String)))
    (trainConv : List (List (List String)) → List Example × List Nat)
    (X : Option (List String)) (v : List Nat) (sw : Option (List ℚ)) :
    convert true msl mpps do_perm tok conv_x trainConv X (some v) sw true
      = Except.error "`y` should be None when `do_sample_sentence` is True."
    ∧ convert false msl mpps do_perm tok conv_x trainConv X none sw true
      = Except.error "`y` can't be None when `do_sample_sentence` is False." :=
  ⟨rfl, rfl⟩

theorem tokenize_all_error_at
    (conv_x : String → Option (List (List String))) (s : String)
    (rest : List String) :
    ∀ (pre : List String) (i : Nat),
    (∀ p ∈ pre, (conv_x p).isSome = true) → conv_x s = none →
    ALBERT.tokenize_all conv_x (pre ++ s :: rest) i
      = Except.error (ALBERT.wrong_input_msg (i + pre.length) s) := by
  intro pre
  induction pre with
  | nil =>
    intro i _ hs
    simp [ALBERT.tokenize_all, hs]
  | cons p pre ih =>
    intro i hpre hs
    have hp : (conv_x p).isSome = true := hpre p (by simp)
    obtain ⟨t, hpt⟩ := Option.isSome_iff_exists.mp hp
    simp only [List.cons_append, ALBERT.tokenize_all, hpt, List.append_eq]
    rw [ih (i + 1) (fun q hq => hpre q (by simp [hq])) hs]
    have harith : i + 1 + pre.length = i + (p :: pre).length := by
      simp only [List.length_cons]
      omega
    rw [harith]
    rfl

open ALBERT in
/-- C7.  If converting the sample at index `idx` fails during
tokenization (`conv_x` returns `none` at position `pre.length`, all
earlier samples converting fine), then `ALBERTLM._convert_X` aborts the
whole batch with a `ValueError` whose message contains both the
offending index and the raw sample value, producing no partial output:
the overall result is exactly that error. -/
theorem C7_convert_X_fail_fast
    (msl mpps : Nat) (do_perm : Bool) (tok : String → Nat)
    (conv_x : String → Option (List (List String)))
    (pre : List String) (s : String) (rest : List String)
    (hpre : ∀ p ∈ pre, (conv_x p).isSome = true) (hs : conv_x s = none) :
    convert_X_infer msl mpps do_perm tok conv_x (pre ++ s :: rest)
      = Except.error (wrong_input_msg pre.length s)
    ∧ (∃ a b : String,
        wrong_input_msg pre.length s = a ++ toString pre.length ++ b)
    ∧ (∃ a b : String, wrong_input_msg pre.length s = a ++ s ++ b) := by
  refine ⟨?_, ⟨"Wrong input format (line ", "): \"" ++ s ++ "\". ", ?_⟩,
    ⟨"Wrong input format (line " ++ toString pre.length ++ "): \"", "\". ", ?_⟩⟩
  · unfold convert_X_infer
    rw [tokenize_all_error_at conv_x s rest pre 0 hpre hs]
    rw [Nat.zero_add]
    rfl
  · simp only [wrong_input_msg, String.append_assoc]
  · rfl

/-- Witness for C7 at a concrete failing batch. -/
theorem C7_convert_X_fail_fast_witness :
    ALBERT.convert_X_infer 4 1 false (fun _ => 0)
      (fun s => if s = "bad" then none else some [[s]]) ["ok", "bad"]
      = Except.error (ALBERT.wrong_input_msg 1 "bad") :=
  (C7_convert_X_fail_fast 4 1 false (fun _ => 0)
    (fun s => if s = "bad" then none else some [[s]]) ["ok"] "bad" []
    (by intro p hp
        simp only [List.mem_cons, List.not_mem_nil, or_false] at hp
        subst hp
        decide)
    (by decide)).1

theorem maskPositions_ge :
    ∀ (ts : List String) (i : Nat), ∀ x ∈ ALBERT.maskPositions ts i, i ≤ x := by
  intro ts
  induction ts with
  | nil => intro i x hx; simp [ALBERT.maskPositions] at hx
  | cons t ts ih =>
    intro i x hx
    simp only [ALBERT.maskPositions] at hx
    split at hx
    · rcases List.mem_cons.mp hx with rfl | hx
      · exact le_refl x
      · exact le_trans (Nat.le_succ i) (ih (i + 1) x hx)
    · exact le_trans (Nat.le_succ i) (ih (i + 1) x hx)

theorem maskPositions_pairwise :
    ∀ (ts : List String) (i : Nat),
    (ALBERT.maskPositions ts i).Pairwise (· < ·) := by
  intro ts
  induction ts with
  | nil => intro i; simp [ALBERT.maskPositions]
  | cons t ts ih =>
    intro i
    simp only [ALBERT.maskPositions]
    split
    · exact List.Pairwise.cons
        (fun x hx => lt_of_lt_of_le (Nat.lt_succ_self i) (maskPositions_ge ts (i + 1) x hx))
        (ih (i + 1))
    · exact ih (i + 1)

theorem maskPositions_mem :
    ∀ (ts : List String) (i j : Nat),
    j ∈ ALBERT.maskPositions ts i
      ↔ ∃ k, k < ts.length ∧ j = i + k ∧ ts.getD k "" = "[MASK]" := by
  intro ts
  induction ts with
  | nil =>
    intro i j
    simp [ALBERT.maskPositions]
  | cons t ts ih =>
    intro i j
    constructor
    · intro hj
      simp only [ALBERT.maskPositions] at hj
      split at hj
      · next hteq =>
        rcases List.mem_cons.mp hj with rfl | hj
        · exact ⟨0, by simp, by omega, by simpa using hteq⟩
        · obtain ⟨k, hk, hjk, hm⟩ := (ih (i + 1) j).mp hj
          exact ⟨k + 1, by simp; omega, by omega, by simpa using hm⟩
      · obtain ⟨k, hk, hjk, hm⟩ := (ih (i + 1) j).mp hj
        exact ⟨k + 1, by simp; omega, by omega, by simpa using hm⟩
    · rintro ⟨k, hk, rfl, hm⟩
      cases k with
      | zero =>
        simp only [List.getD_cons_zero] at hm
        simp [ALBERT.maskPositions, hm]
      | succ k' =>
        simp only [List.getD_cons_succ] at hm
        have hmem : i + 1 + k' ∈ ALBERT.maskPositions ts (i + 1) :=
          (ih (i + 1) (i + 1 + k')).mpr
            ⟨k', by simp at hk; omega, rfl, hm⟩
        have harith : i + (k' + 1) = i + 1 + k' := by omega
        rw [harith]
        simp only [ALBERT.maskPositions]
        split
        · exact List.mem_cons_of_mem _ hmem
        · exact hmem

/-- C9 counterexample: in inference mode with `max_predictions_per_seq=1`
and `do_permutation=False`, an input carrying two `[MASK]` tokens yields
a `masked_lm_positions` row of length 2, not `1 * (1 + 0)`: the padding
loop never truncates, so the claimed exact length fails. -/
theorem C9_infer_positions_len_cex :
    (ALBERT.convert_example_infer 6 1 false (fun _ => 0)
      [["[MASK]", "[MASK]"]]).masked_lm_positions.length
      ≠ 1 * (1 + ALBERT.bton false) := by decide

open ALBERT in
/-- C9 (amended).  In inference mode, the scanned mask positions are
exactly the indices of tokens equal to `"[MASK]"`, in strictly
increasing order; whenever their number is at most
`max_predictions_per_seq * (1 + do_permutation)` (hypothesis `hcount` —
without it the list keeps all indices and exceeds the budget), the
returned row is that list zero-padded to exactly that length; and the
data dictionary built by `convert` in inference mode contains no
`masked_lm_ids` and no `masked_lm_weights` entries. -/
theorem C9_infer_mask_positions
    (msl mpps : Nat) (do_perm : Bool) (tok : String → Nat)
    (segs0 : List (List String)) (xs : List String) (y : Option (List Nat))
    (sw : Option (List ℚ)) (dss : Bool)
    (conv_x : String → Option (List (List String)))
    (trainConv : List (List (List String)) → List Example × List Nat)
    (segss : List (List (List String)))
    (hcount : (mask_positions_of (assemble_tokens
        (truncate_segments segs0 (msl - segs0.length - 1)))).length
      ≤ mpps * (1 + bton do_perm))
    (htok : tokenize_all conv_x xs 0 = Except.ok segss) :
    (∀ j, j ∈ mask_positions_of (assemble_tokens
        (truncate_segments segs0 (msl - segs0.length - 1)))
      ↔ (j < (assemble_tokens (truncate_segments segs0 (msl - segs0.length - 1))).length
        ∧ (assemble_tokens (truncate_segments segs0 (msl - segs0.length - 1))).getD j ""
          = "[MASK]"))
    ∧ (mask_positions_of (assemble_tokens
        (truncate_segments segs0 (msl - segs0.length - 1)))).Pairwise (· < ·)
    ∧ (convert_example_infer msl mpps do_perm tok segs0).masked_lm_positions
      = mask_positions_of (assemble_tokens
          (truncate_segments segs0 (msl - segs0.length - 1)))
        ++ List.replicate (mpps * (1 + bton do_perm)
            - (mask_positions_of (assemble_tokens
                (truncate_segments segs0 (msl - segs0.length - 1)))).length) 0
    ∧ (convert_example_infer msl mpps do_perm tok segs0).masked_lm_positions.length
      = mpps * (1 + bton do_perm)
    ∧ (convert dss msl mpps do_perm tok conv_x trainConv (some xs) y sw false).map
        (fun d => (d.masked_lm_ids, d.masked_lm_weights))
      = Except.ok (none, none) := by
  refine ⟨?_, maskPositions_pairwise _ 0, rfl, ?_, ?_⟩
  · intro j
    rw [ALBERT.mask_positions_of, maskPositions_mem]
    constructor
    · rintro ⟨k, hk, rfl, hm⟩
      rw [Nat.zero_add]
      exact ⟨hk, hm⟩
    · rintro ⟨hj, hm⟩
      exact ⟨j, hj, by omega, hm⟩
  · exact padTo_length _ _ _ hcount
  · simp only [ALBERT.convert, Bool.false_and, Bool.and_false, if_neg,
      Bool.false_eq_true, not_false_iff, htok]
    cases y <;> rfl

/-- Witness for C9 at a concrete inference example. -/
theorem C9_infer_mask_positions_witness :
    (ALBERT.convert_example_infer 8 2 false (fun _ => 0)
      [["a", "[MASK]"]]).masked_lm_positions.length
      = 2 * (1 + ALBERT.bton false) :=
  (C9_infer_mask_positions 8 2 false (fun _ => 0) [["a", "[MASK]"]] []
    none none false (fun _ => some [["a"]]) (fun _ => ([], [])) []
    (by decide) rfl).2.2.2.1
